import Mathlib

/-!
# AI_Prospectus — batch match-evaluation engine, shallow embedding

This file embeds, in Lean 4, the parts of the `AI_Prospectus` repository that
the verification claims are about:

* `src/services/gpt_service.py` — pydantic field validators
  (`CriteriaInfo.normalize_required_fields`, `MatchResult.normalize_confidence`,
  `MatchResult.normalize_match_score`, …), the response-normalization cascade
  (`CompanyMatcher._parse_llm_response`, `CompanyMatcher._extract_match_result`),
  the criteria-extraction cache (`CompanyMatcher._cached_criteria_extraction`),
  and the batch driver (`CompanyMatcher.process_batch_with_criteria`).
* `src/app.py` — the batch endpoint `evaluate_batch_companies` (validation,
  overall-deadline computation, dispatch on `criteria`, callback), and the
  retrieval-only driver `process_batch_without_criteria`.

Python values coming back from `json.loads` are modelled by an inductive
`JVal`; Python floats are modelled by rationals (the claims under study are
about exact constants, parsing and clamping, not rounding); machine strings
are Lean `String`s; a Python function that can raise models the raising path
explicitly.  Concurrency (`asyncio.gather` over a chunk) is modelled by a
completion order: a list of task indices in the order the scheduler finishes
them; `gather` itself writes each task's value into the slot of that task's
input position, which the model makes explicit and the order-insensitivity
theorems quantify over.
-/

namespace Prospectus

/-! ## Python string helpers -/

/-- Python `str.strip()` whitespace set (ASCII fragment relevant here). -/
def pyWhitespace : List Char := [' ', '\t', '\n', '\r', '\x0b', '\x0c']

def isPyWs (c : Char) : Bool := pyWhitespace.contains c

/-- Python `str.strip()`. -/
def pyStrip (s : String) : String :=
  ⟨(s.data.dropWhile isPyWs).reverse.dropWhile isPyWs |>.reverse⟩

/-- Python `str.lower()` (ASCII). -/
def pyLower (s : String) : String := ⟨s.data.map Char.toLower⟩

/-! ## Kernel-reducible rational arithmetic

`Rat.add`, `Rat.mul` and `Rat.div` do not reduce inside `decide`/`rfl`
proofs in this toolchain, so the embedding computes with wrappers built on
`Rat.divInt`/`Rat.normalize` (which do reduce).  The bridge lemmas prove
each wrapper equal to the corresponding field operation on `ℚ`, so the
model's arithmetic is the real arithmetic. -/

def qAdd (a b : ℚ) : ℚ :=
  Rat.normalize (a.num * (b.den : ℤ) + b.num * (a.den : ℤ)) (a.den * b.den)
    (Nat.mul_ne_zero a.den_nz b.den_nz)

def qMul (a b : ℚ) : ℚ :=
  Rat.normalize (a.num * b.num) (a.den * b.den)
    (Nat.mul_ne_zero a.den_nz b.den_nz)

def qDiv (a b : ℚ) : ℚ := Rat.divInt (a.num * (b.den : ℤ)) ((a.den : ℤ) * b.num)

def qNeg (a : ℚ) : ℚ := Rat.divInt (-a.num) (a.den : ℤ)

def qPowNat (q : ℚ) : ℕ → ℚ
  | 0 => 1
  | k + 1 => qMul q (qPowNat q k)

/-- `q * 10^e` for an integer exponent `e`. -/
def qMulPow10z (q : ℚ) : ℤ → ℚ
  | .ofNat k => qMul q (qPowNat 10 k)
  | .negSucc k => qDiv q (qPowNat 10 (k + 1))

/-! ## JSON values and a model of `json.loads`

`JVal` models the Python values that `json.loads` can return (plus the raw
inputs a pydantic `mode='before'` validator can receive).  `jsonLoads` is a
strict recursive-descent JSON parser with explicit fuel; parse failure
models `json.loads` raising `JSONDecodeError`. -/

inductive JVal : Type where
  | null : JVal
  | bool (b : Bool) : JVal
  | int (n : ℤ) : JVal
  | float (q : ℚ) : JVal
  | str (s : String) : JVal
  | arr (l : List JVal) : JVal
  | obj (l : List (String × JVal)) : JVal

/-- Python truthiness (`if item:`) of a `JVal`. -/
def pyTruthy : JVal → Bool
  | .null => false
  | .bool b => b
  | .int n => n != 0
  | .float q => q != 0
  | .str s => s != ""
  | .arr l => !l.isEmpty
  | .obj l => !l.isEmpty

mutual

/-- Python `repr` of a `JVal` (container elements render via `repr`).
Float rendering is modelled coarsely; no claim evaluates `str()` on
numbers or containers. -/
def pyRepr : JVal → String
  | .null => "None"
  | .bool true => "True"
  | .bool false => "False"
  | .int n => toString n
  | .float q => toString q
  | .str s => "\x27" ++ s ++ "\x27"
  | .arr l => "[" ++ String.intercalate ", " (pyReprList l) ++ "]"
  | .obj l => "\x7b" ++ String.intercalate ", " (pyReprMembers l) ++ "\x7d"

def pyReprList : List JVal → List String
  | [] => []
  | v :: vs => pyRepr v :: pyReprList vs

def pyReprMembers : List (String × JVal) → List String
  | [] => []
  | (k, v) :: vs => ("\x27" ++ k ++ "\x27: " ++ pyRepr v) :: pyReprMembers vs

end

/-- Python `str()` of a `JVal` (identity on strings, `repr` elsewhere). -/
def pyStr : JVal → String
  | .str s => s
  | v => pyRepr v

/-- JSON whitespace. -/
def jsonWs (c : Char) : Bool := c == ' ' || c == '\t' || c == '\n' || c == '\r'

def skipWs (cs : List Char) : List Char := cs.dropWhile jsonWs

def digitsToNat (ds : List Char) : ℕ :=
  ds.foldl (fun a c => a * 10 + (c.toNat - 48)) 0

/-- Parse a strict JSON number (sign, integer part without leading zeros,
optional fraction, optional exponent).  Integers with neither fraction nor
exponent come back as Python ints, everything else as floats. -/
def parseJNumber (cs : List Char) : Option (JVal × List Char) :=
  let (neg, cs1) := match cs with
    | '-' :: rest => (true, rest)
    | _ => (false, cs)
  let (intDigits, cs2) := cs1.span Char.isDigit
  if intDigits = [] then none
  else if intDigits.length > 1 ∧ intDigits.head? = some '0' then none
  else
    let (fracDigits, cs3) := match cs2 with
      | '.' :: rest =>
          let (ds, r) := rest.span Char.isDigit
          (some ds, r)
      | _ => (none, cs2)
    match fracDigits with
    | some [] => none
    | _ =>
      let (expPart, cs4) : Option (Bool × List Char) × List Char :=
        match cs3 with
        | 'e' :: rest | 'E' :: rest =>
            let (eneg, rest1) := match rest with
              | '-' :: r => (true, r)
              | '+' :: r => (false, r)
              | _ => (false, rest)
            let (ds, r) := rest1.span Char.isDigit
            (some (eneg, ds), r)
        | _ => (none, cs3)
      match expPart with
      | some (_, []) => none
      | _ =>
        let intVal : ℚ := (digitsToNat intDigits : ℚ)
        let fracVal : ℚ := match fracDigits with
          | some ds => qDiv (digitsToNat ds : ℚ) (qPowNat 10 ds.length)
          | none => 0
        let mag : ℚ := qAdd intVal fracVal
        let scaled : ℚ := match expPart with
          | some (eneg, ds) =>
              let e := digitsToNat ds
              if eneg then qDiv mag (qPowNat 10 e) else qMul mag (qPowNat 10 e)
          | none => mag
        let signed : ℚ := if neg then qNeg scaled else scaled
        match fracDigits, expPart with
        | none, none =>
            some (.int (if neg then -(digitsToNat intDigits : ℤ) else (digitsToNat intDigits : ℤ)), cs4)
        | _, _ => some (.float signed, cs4)

def hexVal (c : Char) : Option ℕ :=
  if c.isDigit then some (c.toNat - 48)
  else if 'a' ≤ c ∧ c ≤ 'f' then some (c.toNat - 87)
  else if 'A' ≤ c ∧ c ≤ 'F' then some (c.toNat - 55)
  else none

/-- Parse the body of a JSON string (opening quote already consumed). -/
def parseJString : ℕ → List Char → List Char → Option (String × List Char)
  | 0, _, _ => none
  | _, [], _ => none
  | fuel + 1, c :: rest, acc =>
    if c = '"' then some (⟨acc.reverse⟩, rest)
    else if c = '\\' then
      match rest with
      | [] => none
      | e :: rest2 =>
        match e with
        | '"' => parseJString fuel rest2 ('"' :: acc)
        | '\\' => parseJString fuel rest2 ('\\' :: acc)
        | '/' => parseJString fuel rest2 ('/' :: acc)
        | 'b' => parseJString fuel rest2 ('\x08' :: acc)
        | 'f' => parseJString fuel rest2 ('\x0c' :: acc)
        | 'n' => parseJString fuel rest2 ('\n' :: acc)
        | 'r' => parseJString fuel rest2 ('\r' :: acc)
        | 't' => parseJString fuel rest2 ('\t' :: acc)
        | 'u' =>
          match rest2 with
          | h1 :: h2 :: h3 :: h4 :: rest3 =>
            match hexVal h1, hexVal h2, hexVal h3, hexVal h4 with
            | some a, some b, some c', some d =>
                parseJString fuel rest3
                  (Char.ofNat (((a * 16 + b) * 16 + c') * 16 + d) :: acc)
            | _, _, _, _ => none
          | _ => none
        | _ => none
    else parseJString fuel rest (c :: acc)

mutual

/-- Parse one JSON value (leading whitespace allowed). -/
def parseJVal : ℕ → List Char → Option (JVal × List Char)
  | 0, _ => none
  | fuel + 1, cs =>
    match skipWs cs with
    | '\x7b' :: rest => parseJObj fuel rest
    | '[' :: rest => parseJArr fuel rest
    | '"' :: rest =>
        (parseJString (rest.length + 1) rest []).map (fun p => (.str p.1, p.2))
    | 't' :: 'r' :: 'u' :: 'e' :: rest => some (.bool true, rest)
    | 'f' :: 'a' :: 'l' :: 's' :: 'e' :: rest => some (.bool false, rest)
    | 'n' :: 'u' :: 'l' :: 'l' :: rest => some (.null, rest)
    | other => parseJNumber other

def parseJArr : ℕ → List Char → Option (JVal × List Char)
  | 0, _ => none
  | fuel + 1, cs =>
    match skipWs cs with
    | ']' :: rest => some (.arr [], rest)
    | other =>
      match parseJVal fuel other with
      | none => none
      | some (v, rest) => parseJArrTail fuel rest [v]

def parseJArrTail : ℕ → List Char → List JVal → Option (JVal × List Char)
  | 0, _, _ => none
  | fuel + 1, cs, acc =>
    match skipWs cs with
    | ']' :: rest => some (.arr acc.reverse, rest)
    | ',' :: rest =>
      match parseJVal fuel rest with
      | none => none
      | some (v, rest2) => parseJArrTail fuel rest2 (v :: acc)
    | _ => none

def parseJObj : ℕ → List Char → Option (JVal × List Char)
  | 0, _ => none
  | fuel + 1, cs =>
    match skipWs cs with
    | '\x7d' :: rest => some (.obj [], rest)
    | other =>
      match parseJMember fuel other with
      | none => none
      | some (k, v, rest) => parseJObjTail fuel rest [(k, v)]

def parseJObjTail : ℕ → List Char → List (String × JVal) → Option (JVal × List Char)
  | 0, _, _ => none
  | fuel + 1, cs, acc =>
    match skipWs cs with
    | '\x7d' :: rest => some (.obj acc.reverse, rest)
    | ',' :: rest =>
      match parseJMember fuel rest with
      | none => none
      | some (k, v, rest2) => parseJObjTail fuel rest2 ((k, v) :: acc)
    | _ => none

def parseJMember : ℕ → List Char → Option (String × JVal × List Char)
  | 0, _ => none
  | fuel + 1, cs =>
    match skipWs cs with
    | '"' :: rest =>
      match parseJString (rest.length + 1) rest [] with
      | none => none
      | some (k, rest2) =>
        match skipWs rest2 with
        | ':' :: rest3 =>
          match parseJVal fuel rest3 with
          | none => none
          | some (v, rest4) => some (k, v, rest4)
        | _ => none
    | _ => none

end

/-- Model of Python `json.loads`: parse one value, then require only
trailing whitespace.  `none` models a raised `JSONDecodeError`. -/
def jsonLoads (s : String) : Option JVal :=
  match parseJVal (4 * s.length + 4) s.data with
  | some (v, rest) => if skipWs rest = [] then some v else none
  | none => none

/-! ## `CriteriaInfo.normalize_required_fields`
(src/services/gpt_service.py lines 65-81) -/

/-- The list comprehension `[str(item).strip() for item in l if item]`. -/
def coerceListItems (l : List JVal) : List String :=
  (l.filter pyTruthy).map (fun item => pyStrip (pyStr item))

/-- `CriteriaInfo.normalize_required_fields`, translated clause for clause
from the pydantic validator.  Note: a string that parses as JSON but not as
a JSON list falls through both `isinstance` blocks and returns `[]`. -/
def normalize_required_fields : JVal → List String
  | .null => []
  | .str v =>
      match jsonLoads v with
      | some (.arr parsed) => coerceListItems parsed
      | some _ => []
      | none => ((v.splitOn ",").map pyStrip).filter (fun item => item ≠ "")
  | .arr l => coerceListItems l
  | _ => []

/-- The fixed field vocabulary enumerated in the criteria-extraction system
prompt (src/services/gpt_service.py lines 259-272).  It appears only in the
prompt text, not in any validator. -/
def allowed_fields_vocabulary : List String :=
  ["name", "orgnr", "purpose", "companyType", "contact", "location",
   "industry", "registration", "governance", "financialSummary",
   "accountingHistory", "risks"]

/-! ## Overall batch deadline (src/app.py lines 293-295)

`overall_timeout = min(max(num_companies * 5 * 60, 600), 7200)` -/

/-- `overall_timeout` as computed by `evaluate_batch_companies` in
`src/app.py`: 5 minutes per company, floor 10 minutes, cap 2 hours. -/
def overall_timeout (num_companies : ℕ) : ℕ :=
  min (max (num_companies * 5 * 60) 600) 7200

/-- Modelled from the spec wording: `clamp(x, lower, upper)`. -/
def specClamp (lower upper x : ℕ) : ℕ := min (max x lower) upper

/-! ## `MatchResult` and its field validators
(src/services/gpt_service.py lines 83-204) -/

/-- Python `int()` truncation toward zero on a rational (`Int.div` is
T-division). -/
def pyIntTrunc (q : ℚ) : ℤ := Int.tdiv q.num (q.den : ℤ)

/-- Model of Python `float(s)` on a string: optional sign, digits with an
optional decimal point and an optional exponent (underscore separators and
inf/nan spellings are outside the model's scope; no claim input uses them).
`none` models a raised `ValueError`. -/
def pyFloatExp (rest : List Char) : Option ℤ :=
  let (eneg, rest1) := match rest with
    | '-' :: r => (true, r)
    | '+' :: r => (false, r)
    | _ => (false, rest)
  let (ds, r) := rest1.span Char.isDigit
  if ds = [] ∨ r ≠ [] then none
  else some (if eneg then -(digitsToNat ds : ℤ) else (digitsToNat ds : ℤ))

def pyFloat (s : String) : Option ℚ :=
  let cs := (pyStrip s).data
  let (neg, cs1) := match cs with
    | '-' :: rest => (true, rest)
    | '+' :: rest => (false, rest)
    | _ => (false, cs)
  let (ip, r1) := cs1.span Char.isDigit
  let (fp, r2) : List Char × List Char := match r1 with
    | '.' :: rest => rest.span Char.isDigit
    | _ => ([], r1)
  if ip = [] ∧ fp = [] then none
  else
    let mag : ℚ := qAdd (digitsToNat ip : ℚ)
      (qDiv (digitsToNat fp : ℚ) (qPowNat 10 fp.length))
    let signed := fun (q : ℚ) => if neg then qNeg q else q
    match r2 with
    | [] => some (signed mag)
    | 'e' :: rest => (pyFloatExp rest).map (fun e => signed (qMulPow10z mag e))
    | 'E' :: rest => (pyFloatExp rest).map (fun e => signed (qMulPow10z mag e))
    | _ => none

/-- `min(1.0, max(0.0, q))`. -/
def clamp01 (q : ℚ) : ℚ := min 1 (max 0 q)

/-- The confidence word map from `MatchResult.normalize_confidence`
(0.9, 0.95, 0.7, 0.75, 0.4, 0.3, 0.2, 1.0, 0.5, 0.3 written as exact
rationals). -/
def confidence_map : List (String × ℚ) :=
  [("high", Rat.divInt 9 10), ("very high", Rat.divInt 95 100),
   ("medium", Rat.divInt 7 10), ("medium high", Rat.divInt 75 100),
   ("medium low", Rat.divInt 4 10), ("low", Rat.divInt 3 10),
   ("very low", Rat.divInt 2 10), ("certain", 1),
   ("uncertain", Rat.divInt 5 10), ("doubtful", Rat.divInt 3 10)]

/-- `re.findall(r'\d+', v)`: full matches (no capture group). -/
def findallDigitRunsAux : ℕ → List Char → List String
  | 0, _ => []
  | _, [] => []
  | fuel + 1, c :: rest =>
    if c.isDigit then
      let ds := (c :: rest).takeWhile Char.isDigit
      (⟨ds⟩ : String) :: findallDigitRunsAux fuel ((c :: rest).dropWhile Char.isDigit)
    else findallDigitRunsAux fuel rest

def findallDigitRuns (s : String) : List String :=
  findallDigitRunsAux (s.length + 1) s.data

/-- `re.findall(r'\d+(\.\d+)?', v)`.  Because the pattern has a capture
group, Python's `findall` returns the text of the GROUP for each overall
match: the fractional part `".ddd"` when present, and the empty string when
the optional group did not participate. -/
def findallNumGroupsAux : ℕ → List Char → List String
  | 0, _ => []
  | _, [] => []
  | fuel + 1, c :: rest =>
    if c.isDigit then
      let rest1 := (c :: rest).dropWhile Char.isDigit
      match rest1 with
      | '.' :: d :: rest2 =>
        if d.isDigit then
          ("." ++ (⟨(d :: rest2).takeWhile Char.isDigit⟩ : String)) ::
            findallNumGroupsAux fuel ((d :: rest2).dropWhile Char.isDigit)
        else "" :: findallNumGroupsAux fuel rest1
      | _ => "" :: findallNumGroupsAux fuel rest1
    else findallNumGroupsAux fuel rest

def findallNumGroups (s : String) : List String :=
  findallNumGroupsAux (s.length + 1) s.data

/-- `re.search(r'(\d+(\.\d+)?)%', v)`, returning group 1 (the number before
the percent sign) of the leftmost match. -/
def searchPercentNumberAux : ℕ → List Char → Option String
  | 0, _ => none
  | _, [] => none
  | fuel + 1, c :: rest =>
    if c.isDigit then
      let ip := (c :: rest).takeWhile Char.isDigit
      let after := (c :: rest).dropWhile Char.isDigit
      match after with
      | '.' :: d :: rest2 =>
        if d.isDigit then
          let fp := (d :: rest2).takeWhile Char.isDigit
          match (d :: rest2).dropWhile Char.isDigit with
          | '%' :: _ => some ((⟨ip⟩ : String) ++ "." ++ (⟨fp⟩ : String))
          | _ => searchPercentNumberAux fuel rest
        else searchPercentNumberAux fuel rest
      | '%' :: _ => some (⟨ip⟩ : String)
      | _ => searchPercentNumberAux fuel rest
    else searchPercentNumberAux fuel rest

def searchPercentNumber (s : String) : Option String :=
  searchPercentNumberAux (s.length + 1) s.data

/-- `MatchResult.normalize_confidence`
(src/services/gpt_service.py lines 112-170), clause for clause. -/
def normalize_confidence : JVal → ℚ
  | .null => 0
  | .bool b => clamp01 (if b then 1 else 0)
  | .int n => clamp01 (n : ℚ)
  | .float q => clamp01 q
  | .str v =>
      let vLower := pyStrip (pyLower v)
      match confidence_map.find? (fun p => p.1 == vLower) with
      | some p => p.2
      | none =>
        let viaPercent : Option ℚ :=
          if v.data.contains '%' then
            match searchPercentNumber v with
            | some numStr => (pyFloat numStr).map (fun q => qDiv q 100)
            | none => none
          else none
        match viaPercent with
        | some q => q
        | none =>
          let viaFindall : Option ℚ :=
            match findallNumGroups v with
            | [] => none
            | g :: _ =>
              match pyFloat g with
              | some num => some (if num > 1 then qDiv num 100 else clamp01 num)
              | none => none
          match viaFindall with
          | some q => q
          | none =>
            match pyFloat v with
            | some q => clamp01 q
            | none => 0
  | _ => 0

/-- `MatchResult.normalize_match_score`
(src/services/gpt_service.py lines 92-110). -/
def normalize_match_score : JVal → ℤ
  | .null => 0
  | .str v =>
      match findallDigitRuns v with
      | numStr :: _ => min 100 (max 0 (digitsToNat numStr.data : ℤ))
      | [] =>
        match pyFloat v with
        | some q => min 100 (max 0 (pyIntTrunc q))
        | none => 0
  | .bool b => min 100 (max 0 (if b then (1 : ℤ) else 0))
  | .int n => min 100 (max 0 n)
  | .float q => min 100 (max 0 (pyIntTrunc q))
  | _ => 0

/-- Minimal model of `json.dumps` for `normalize_reason`'s dict branch. -/
def jsonDumpsObj (l : List (String × JVal)) : String :=
  "\x7b" ++ String.intercalate ", "
    (l.map (fun p => "\x22" ++ p.1 ++ "\x22: " ++ pyRepr p.2)) ++ "\x7d"

/-- `MatchResult.normalize_reason`
(src/services/gpt_service.py lines 172-184). -/
def normalize_reason : JVal → String
  | .null => ""
  | .obj l => jsonDumpsObj l
  | .arr l => String.intercalate " " (l.map pyStr)
  | v => pyStr v

/-- `MatchResult.normalize_keyword_lists`
(src/services/gpt_service.py lines 186-204).  The dict branch returns the
raw values (the model folds in their string rendering). -/
def normalize_keyword_lists : JVal → List String
  | .null => []
  | .str v =>
      match jsonLoads v with
      | some (.arr parsed) => coerceListItems parsed
      | some _ => []
      | none => ((v.splitOn ",").map pyStrip).filter (fun item => item ≠ "")
  | .obj l => l.map (fun p => pyStr p.2)
  | .arr l =>
      (l.filter (fun item => match item with | .null => false | _ => true)).map
        (fun item => pyStrip (pyStr item))
  | _ => []

/-- The `MatchResult` record after pydantic validation. -/
structure MatchResultR where
  match_score : ℤ
  reason : String
  confidence : ℚ
  matched_keywords : List String
  unmatched_keywords : List String
  processing_time : ℚ
  deriving DecidableEq, Repr

/-- `MatchResult(**kwargs)` on raw values: every field validator runs on
construction (`mode='before'`). -/
def mkMatchResult (score reason conf mk uk : JVal) (pt : ℚ) : MatchResultR :=
  ⟨normalize_match_score score, normalize_reason reason,
   normalize_confidence conf, normalize_keyword_lists mk,
   normalize_keyword_lists uk, pt⟩

/-! ## `CompanyMatcher._extract_match_result`
(src/services/gpt_service.py lines 386-437)

Each `re.search` of the source is implemented as an explicit left-to-right
scanner for that particular pattern (leftmost match, greedy repetition,
with the one backtracking case that matters spelled out). -/

/-- Try a position-anchored matcher at every position, left to right
(`re.search` semantics). -/
def searchBy {α : Type} (f : List Char → Option α) : List Char → Option α
  | [] => none
  | c :: rest =>
    match f (c :: rest) with
    | some x => some x
    | none => searchBy f rest

/-- Consume a literal (given lowercase), comparing case-insensitively
(`re.IGNORECASE`). -/
def dropLitCI : List Char → List Char → Option (List Char)
  | [], cs => some cs
  | _ :: _, [] => none
  | l :: ls, c :: cs => if c.toLower = l then dropLitCI ls cs else none

/-- The `[\s:]*` separator class. -/
def sepClass (c : Char) : Bool := isPyWs c || c == ':'

def isWordChar (c : Char) : Bool := c.isAlphanum || c == '_'

/-- `re.search(r'match[_\s-]?score[\s:]*(\d+)', content, re.IGNORECASE)`,
anchored at one position; group 1 as a number. -/
def scoreAt (cs : List Char) : Option ℕ :=
  let tail := fun (r : List Char) =>
    match dropLitCI "score".data r with
    | none => none
    | some r2 =>
      let ds := (r2.dropWhile sepClass).takeWhile Char.isDigit
      if ds.isEmpty then none else some (digitsToNat ds)
  match dropLitCI "match".data cs with
  | none => none
  | some r1 =>
    match r1 with
    | c :: r1' =>
      if c = '_' ∨ isPyWs c ∨ c = '-' then
        match tail r1' with
        | some n => some n
        | none => tail r1
      else tail r1
    | [] => tail r1

/-- `r'confidence[\s:]*(\d+(\.\d+)?)'` anchored; group 1. -/
def conf1At (cs : List Char) : Option String :=
  match dropLitCI "confidence".data cs with
  | none => none
  | some r =>
    let r2 := r.dropWhile sepClass
    let ds := r2.takeWhile Char.isDigit
    if ds.isEmpty then none
    else
      match r2.dropWhile Char.isDigit with
      | '.' :: d :: r4 =>
        if d.isDigit then
          some ((⟨ds⟩ : String) ++ "." ++ (⟨(d :: r4).takeWhile Char.isDigit⟩ : String))
        else some (⟨ds⟩ : String)
      | _ => some (⟨ds⟩ : String)

/-- `r'confidence[\s:]*(\d+)%'` anchored; group 1. -/
def conf2At (cs : List Char) : Option String :=
  match dropLitCI "confidence".data cs with
  | none => none
  | some r =>
    let r2 := r.dropWhile sepClass
    let ds := r2.takeWhile Char.isDigit
    if ds.isEmpty then none
    else
      match r2.dropWhile Char.isDigit with
      | '%' :: _ => some (⟨ds⟩ : String)
      | _ => none

/-- `r'confidence[\s:]*(\w+)'` anchored; group 1. -/
def conf3At (cs : List Char) : Option String :=
  match dropLitCI "confidence".data cs with
  | none => none
  | some r =>
    let r2 := r.dropWhile sepClass
    let w := r2.takeWhile isWordChar
    if w.isEmpty then none else some (⟨w⟩ : String)

/-- `r'reason[\s:]*([^.]+\.)'` anchored; group 1.  When the maximal
`[\s:]*` run is followed directly by a period, the engine backtracks one
separator character into the `[^.]+` group. -/
def reasonAt (cs : List Char) : Option String :=
  match dropLitCI "reason".data cs with
  | none => none
  | some r =>
    let sep := r.takeWhile sepClass
    let r2 := r.dropWhile sepClass
    let body := r2.takeWhile (fun c => c ≠ '.')
    if body.isEmpty then
      match r2, sep.getLast? with
      | '.' :: _, some c => some (⟨[c, '.']⟩ : String)
      | _, _ => none
    else
      match r2.dropWhile (fun c => c ≠ '.') with
      | '.' :: _ => some ((⟨body⟩ : String) ++ ".")
      | _ => none

def containsSubAux : List Char → List Char → Bool
  | [], sub => sub.isEmpty
  | hay@(_ :: rest), sub => sub.isPrefixOf hay || containsSubAux rest sub

/-- Python `sub in hay` substring test. -/
def containsSub (hay sub : String) : Bool := containsSubAux hay.data sub.data

/-- The confidence-pattern loop of `_extract_match_result` (lines 402-425):
try the three patterns in order, break at the first that matches; divide by
100 only when the PATTERN STRING contains a percent sign (only the second
one does); a failed `float()` falls into the word branch. -/
def extractConfidence (cs : List Char) : Option ℚ :=
  match searchBy conf1At cs with
  | some g => some ((pyFloat g).getD 0)
  | none =>
    match searchBy conf2At cs with
    | some g => some (qDiv ((pyFloat g).getD 0) 100)
    | none =>
      match searchBy conf3At cs with
      | some w =>
        match pyFloat w with
        | some q => some q
        | none =>
          let wl := pyLower w
          some (if containsSub wl "high" then Rat.divInt 9 10
            else if containsSub wl "medium" then Rat.divInt 7 10
            else if containsSub wl "low" then Rat.divInt 3 10
            else Rat.divInt 5 10)
      | none => none

/-- `CompanyMatcher._extract_match_result` (lines 386-437): regex-based
manual extraction, then `MatchResult(**result)` (validators re-run). -/
def extract_match_result (content : String) : MatchResultR :=
  let cs := content.data
  let score : ℤ := match searchBy scoreAt cs with
    | some n => min 100 (n : ℤ)
    | none => 0
  let conf : ℚ := match extractConfidence cs with
    | some q => q
    | none => 0
  let reason : String := match searchBy reasonAt cs with
    | some g => pyStrip g
    | none =>
      let first : String := ⟨cs.takeWhile (fun c => ¬(c = '.' ∨ c = '!' ∨ c = '?'))⟩
      if pyStrip first ≠ "" then ⟨(pyStrip first).data.take 200⟩ else ""
  mkMatchResult (.int score) (.str reason) (.float conf) (.arr []) (.arr []) 0

/-! ## `CompanyMatcher._parse_llm_response`
(src/services/gpt_service.py lines 343-384), instantiated at the
`MatchResult` schema -/

def nonBrace (c : Char) : Bool := !(c == '\x7b' || c == '\x7d')

/-- First alternative of `r'\{[^{}]*\{[^{}]*\}[^{}]*\}|\{[^{}]*\}'` at a
position whose opening brace is already consumed. -/
def braceAlt1 (rest : List Char) : Option (List Char × List Char) :=
  let lA := rest.takeWhile nonBrace
  match rest.dropWhile nonBrace with
  | '\x7b' :: r2 =>
    let lB := r2.takeWhile nonBrace
    match r2.dropWhile nonBrace with
    | '\x7d' :: r3 =>
      let lC := r3.takeWhile nonBrace
      match r3.dropWhile nonBrace with
      | '\x7d' :: r4 =>
          some ('\x7b' :: lA ++ '\x7b' :: lB ++ '\x7d' :: lC ++ ['\x7d'], r4)
      | _ => none
    | _ => none
  | _ => none

/-- Second alternative: a flat `\{[^{}]*\}`. -/
def braceAlt2 (rest : List Char) : Option (List Char × List Char) :=
  let lA := rest.takeWhile nonBrace
  match rest.dropWhile nonBrace with
  | '\x7d' :: r2 => some ('\x7b' :: lA ++ ['\x7d'], r2)
  | _ => none

/-- `re.findall` of the brace pattern: non-overlapping leftmost matches,
first alternative preferred. -/
def braceMatchesAux : ℕ → List Char → List String
  | 0, _ => []
  | _, [] => []
  | fuel + 1, c :: rest =>
    if c = '\x7b' then
      match braceAlt1 rest with
      | some (m, r) => (⟨m⟩ : String) :: braceMatchesAux fuel r
      | none =>
        match braceAlt2 rest with
        | some (m, r) => (⟨m⟩ : String) :: braceMatchesAux fuel r
        | none => braceMatchesAux fuel rest
    else braceMatchesAux fuel rest

def braceMatches (s : String) : List String :=
  braceMatchesAux (s.length + 1) s.data

def backtickChar : Char := Char.ofNat 96

/-- Literal match, case-sensitive. -/
def dropLitExact : List Char → List Char → Option (List Char)
  | [], cs => some cs
  | _ :: _, [] => none
  | l :: ls, c :: cs => if c = l then dropLitExact ls cs else none

/-- `re.sub(r'```json\s*|\s*```', '', s)`: the second alternative's greedy
`\s*` can only reach a backtick at the end of the contiguous whitespace
run, so the scan is deterministic. -/
def fenceSub1Aux : ℕ → List Char → List Char
  | 0, cs => cs
  | _, [] => []
  | fuel + 1, c :: rest =>
    match dropLitExact [backtickChar, backtickChar, backtickChar, 'j', 's', 'o', 'n'] (c :: rest) with
    | some r => fenceSub1Aux fuel (r.dropWhile isPyWs)
    | none =>
      match dropLitExact [backtickChar, backtickChar, backtickChar]
          ((c :: rest).dropWhile isPyWs) with
      | some r => fenceSub1Aux fuel r
      | none => c :: fenceSub1Aux fuel rest

/-- `re.sub(r'```\s*|\s*```', '', s)`. -/
def fenceSub2Aux : ℕ → List Char → List Char
  | 0, cs => cs
  | _, [] => []
  | fuel + 1, c :: rest =>
    match dropLitExact [backtickChar, backtickChar, backtickChar] (c :: rest) with
    | some r => fenceSub2Aux fuel (r.dropWhile isPyWs)
    | none =>
      match dropLitExact [backtickChar, backtickChar, backtickChar]
          ((c :: rest).dropWhile isPyWs) with
      | some r => fenceSub2Aux fuel r
      | none => c :: fenceSub2Aux fuel rest

def stripCodeFences (s : String) : String :=
  ⟨fenceSub2Aux (s.length + 1) (fenceSub1Aux (s.length + 1) s.data)⟩

/-- `match.replace('\n', ' ').replace('\t', ' ')`. -/
def replaceNlTab (s : String) : String :=
  ⟨s.data.map (fun c => if c = '\n' ∨ c = '\t' then ' ' else c)⟩

/-- Dictionary lookup (duplicate JSON keys: last one wins, as in Python). -/
def objGet (mem : List (String × JVal)) (k : String) : Option JVal :=
  (mem.reverse.find? (fun p => p.1 == k)).map Prod.snd

/-- `MatchResult(**parsed)` from a parsed JSON object.  For each declared
field a missing key yields the field default, which coincides with the
validator's output on `None`. -/
def matchResultFromObj (mem : List (String × JVal)) : MatchResultR :=
  mkMatchResult ((objGet mem "match_score").getD .null)
    ((objGet mem "reason").getD .null)
    ((objGet mem "confidence").getD .null)
    ((objGet mem "matched_keywords").getD .null)
    ((objGet mem "unmatched_keywords").getD .null)
    (match objGet mem "processing_time" with
     | some (.float q) => q
     | some (.int n) => (n : ℚ)
     | _ => 0)

/-- Strategy 2's loop: candidates in reverse order, bare `except` skips any
candidate that fails to parse or is not a JSON object. -/
def firstObjHit : List String → Option MatchResultR
  | [] => none
  | m :: rest =>
    match jsonLoads (replaceNlTab m) with
    | some (.obj mem) => some (matchResultFromObj mem)
    | _ => firstObjHit rest

/-- `CompanyMatcher._parse_llm_response` with `response_model=MatchResult`:
direct JSON parse, then the last balanced-brace candidate, then
Markdown-fence stripping, then `_extract_match_result` on the ORIGINAL
content.  In strategies 1 and 3 a successful parse of a non-object raises
`TypeError` out of the function (only `JSONDecodeError` is caught there),
modelled by `.error`. -/
def parse_llm_response (content : String) : Except String MatchResultR :=
  match jsonLoads content with
  | some (.obj mem) => .ok (matchResultFromObj mem)
  | some _ => .error "TypeError"
  | none =>
    match firstObjHit (braceMatches content).reverse with
    | some r => .ok r
    | none =>
      match jsonLoads (stripCodeFences content) with
      | some (.obj mem) => .ok (matchResultFromObj mem)
      | some _ => .error "TypeError"
      | none => .ok (extract_match_result content)

/-! ## Concurrency model: chunking and `asyncio.gather`

`process_batch_with_criteria` (gpt_service.py lines 894-1085) and
`process_batch_without_criteria` (app.py lines 132-265) share the same
driver shape: slice the org-number list into consecutive chunks of
`batch_size`, run one `asyncio.gather(..., return_exceptions=True)` per
chunk, replace any exception object that reached `gather` by a synthesized
failed dict for the org number at the same index, extend the accumulator,
sleep 0.5 s between chunks.

`gather` is modelled operationally: the scheduler finishes the chunk's
tasks in some order (a list of task indices); each completed task writes
its value into the slot of its own input index.  The theorems quantify
over the completion order. -/

/-- Length of chunk `j` when a list of `n` items is sliced as
`org_numbers[i : i + bs]` for `i = 0, bs, 2*bs, ...`. -/
def chunkLen (bs n j : ℕ) : ℕ := min bs (n - bs * j)

/-- Completed tasks write their results into their own input slot, in
completion order. -/
def fillSlots {α : Type} (tasks : List α) : List ℕ → List (Option α) → List (Option α)
  | [], acc => acc
  | j :: rest, acc => fillSlots tasks rest (acc.set j tasks[j]?)

/-- The list `asyncio.gather` hands back for one chunk, given the
completion order. -/
def gatherResult {α : Type} (tasks : List α) (order : List ℕ) (dflt : α) : List α :=
  (fillSlots tasks order (List.replicate tasks.length none)).map (fun o => o.getD dflt)

/-- A task either produced its result dict or let an exception escape to
`gather` (which, with `return_exceptions=True`, hands the exception object
back); `String` carries `str(exception)`. -/
abbrev TaskRes (α : Type) : Type := α ⊕ String

/-- The per-chunk loop: slice `l[0:bs]`, gather it under the chunk's
completion order, run the `isinstance(result, Exception)` replacement pass
pairing each slot with `batch_orgs[idx]`, extend, recurse on the rest.
The structural fuel only bounds the number of iterations; one unit per
consumed element is always enough, so `processChunks` below supplies
`l.length`. -/
def processChunksFuel {α : Type} (itemFn : String → TaskRes α)
    (onExc : String → String → α) (dmsg : String) (bs : ℕ)
    (sched : ℕ → List ℕ) : ℕ → ℕ → List String → List α
  | 0, _, _ => []
  | _, _, [] => []
  | fuel + 1, k, l =>
    if bs = 0 then []
    else
      ((l.take bs).zip
          (gatherResult ((l.take bs).map itemFn) (sched k) (Sum.inr dmsg))).map
        (fun p =>
          match p.2 with
          | .inl r => r
          | .inr e => onExc p.1 e)
        ++ processChunksFuel itemFn onExc dmsg bs sched fuel (k + 1) (l.drop bs)

/-- The whole chunk loop, starting at chunk 0. -/
def processChunks {α : Type} (itemFn : String → TaskRes α)
    (onExc : String → String → α) (dmsg : String) (bs : ℕ)
    (sched : ℕ → List ℕ) (l : List String) : List α :=
  processChunksFuel itemFn onExc dmsg bs sched l.length 0 l

/-- A completion order is valid for chunk `j` of `n` items when it is a
permutation of that chunk's task indices (and empty past the last
chunk). -/
def ValidSchedule (bs n : ℕ) (sched : ℕ → List ℕ) : Prop :=
  ∀ j, (sched j).Perm (List.range (chunkLen bs n j))

/-! ## Per-item processing, with criteria
(`process_single_company` inside `process_batch_with_criteria`,
src/services/gpt_service.py lines 925-1053) -/

/-- Result of awaiting one external step under `asyncio.wait_for`. -/
inductive XRes (α : Type) : Type where
  | timeout : XRes α
  | raises (msg : String) : XRes α
  | ret (v : α) : XRes α

/-- The retrieved company record.  `none` stands for a falsy value
(`None`/empty dict); `companyName` models `company_data.get("CompanyName")`
with `""` for a missing or empty name. -/
structure CompanyRec where
  companyName : String
  deriving DecidableEq, Repr

/-- What the environment does for one item's three awaited steps:
data retrieval, `clean_company_info`, and the evaluation call. -/
structure ItemEnvWC where
  fetch : XRes (Option CompanyRec)
  clean : XRes (Option Unit)
  evalRes : XRes MatchResultR

/-- One entry of the with-criteria result list (the dict literals of
lines 937-1053; the success dict carries no `error` key). -/
structure WCOutcome where
  org_number : String
  is_match : Bool
  match_score : ℤ
  reason : String
  confidence : ℚ
  matched_keywords : List String
  unmatched_keywords : List String
  processing_time : ℚ
  status : String
  error : Option String
  company_profile : Option CompanyRec
  deriving DecidableEq, Repr

/-- The outer `except Exception` of `process_single_company`
(lines 1039-1053). -/
def wcCaught (org e : String) : WCOutcome :=
  ⟨org, false, 0, "Error: " ++ e, 0, [], [], 0, "failed", some e, none⟩

/-- `process_single_company` with criteria, branch for branch
(`timeout_per_company` is 120.0 at every call site). -/
def processSingleWC (org : String) (env : ItemEnvWC) : WCOutcome :=
  match env.fetch with
  | .timeout =>
      ⟨org, false, 0, "Timeout retrieving company data after 120.0s", 0, [], [],
       0, "failed", some "Timeout after 120.0 seconds", none⟩
  | .raises e => wcCaught org e
  | .ret none =>
      ⟨org, false, 0, "Failed to retrieve company data", 0, [], [],
       0, "failed", some "Company data not found", none⟩
  | .ret (some d) =>
    match env.clean with
    | .timeout =>
        ⟨org, false, 0, "Timeout retrieving cleaned company data after 120.0s",
         0, [], [], 0, "failed", some "Timeout after 120.0 seconds", some d⟩
    | .raises e => wcCaught org e
    | .ret none =>
        ⟨org, false, 0, "Failed to retrieve cleaned company data", 0, [], [],
         0, "failed", some "Cleaned company data not found", some d⟩
    | .ret (some _) =>
      match env.evalRes with
      | .timeout =>
          ⟨org, false, 0, "Timeout evaluating match criteria", 0, [], [],
           0, "failed", some "Match evaluation timeout", some d⟩
      | .raises e => wcCaught org e
      | .ret m =>
          ⟨org, decide (m.match_score ≥ 80), m.match_score, m.reason,
           m.confidence, m.matched_keywords, m.unmatched_keywords,
           m.processing_time, "success", none, some d⟩

/-- The dict synthesized by the post-`gather` replacement loop
(lines 1064-1076). -/
def wcExcOutcome (org e : String) : WCOutcome :=
  ⟨org, false, 0, "Unexpected error: " ++ e, 0, [], [], 0, "failed",
   some e, none⟩

/-- `CompanyMatcher.process_batch_with_criteria`: the environment answers
each org number with either its three-step outcome or an exception that
escapes to `gather`.  (The one-time criteria interpretation preceding the
loop is modelled in the cache section; the shared `criteria_info` is
closed over by `behavior`.) -/
def process_batch_with_criteria (behavior : String → ItemEnvWC ⊕ String)
    (batch_size : ℕ) (org_numbers : List String)
    (sched : ℕ → List ℕ) : List WCOutcome :=
  processChunks
    (fun org =>
      match behavior org with
      | .inl env => .inl (processSingleWC org env)
      | .inr e => .inr e)
    wcExcOutcome "" batch_size sched org_numbers

/-! ## Per-item processing, retrieval-only
(`process_single_company` inside `process_batch_without_criteria`,
src/app.py lines 166-231) -/

/-- One entry of the no-criteria result list (`match_score` and
`confidence` are always `None` in this path). -/
structure NCOutcome where
  org_number : String
  is_match : Bool
  match_score : Option ℤ
  reason : String
  confidence : Option ℚ
  matched_keywords : List String
  unmatched_keywords : List String
  processing_time : ℚ
  status : String
  error : Option String
  company_profile : Option CompanyRec
  deriving DecidableEq, Repr

/-- The failed dict of lines 189-201 (record falsy, or `CompanyName`
falsy). -/
def ncNotFound (org : String) : NCOutcome :=
  ⟨org, false, none, "Failed to retrieve company data", none, [], [], 0,
   "failed", some "Company data not found or incomplete", none⟩

/-- `process_single_company` without criteria, branch for branch. -/
def processSingleNC (org : String) (fetch : XRes (Option CompanyRec)) : NCOutcome :=
  match fetch with
  | .ret (some d) =>
      if d.companyName ≠ "" then
        ⟨org, true, none, "Data retrieved successfully - no criteria evaluation",
         none, [], [], 0, "success", none, some d⟩
      else ncNotFound org
  | .ret none => ncNotFound org
  | .timeout =>
      ⟨org, false, none, "Timeout after 120.0 seconds", none, [], [], 0,
       "failed", some "Timeout after 120.0 seconds", none⟩
  | .raises e =>
      ⟨org, false, none, "Error: " ++ e, none, [], [], 0, "failed",
       some e, none⟩

/-- The replacement-loop dict of lines 242-254. -/
def ncExcOutcome (org e : String) : NCOutcome :=
  ⟨org, false, none, "Unexpected error: " ++ e, none, [], [], 0, "failed",
   some e, none⟩

/-- `process_batch_without_criteria` (src/app.py lines 132-265). -/
def process_batch_without_criteria
    (behavior : String → XRes (Option CompanyRec) ⊕ String)
    (batch_size : ℕ) (org_numbers : List String)
    (sched : ℕ → List ℕ) : List NCOutcome :=
  processChunks
    (fun org =>
      match behavior org with
      | .inl fr => .inl (processSingleNC org fr)
      | .inr e => .inr e)
    ncExcOutcome "" batch_size sched org_numbers

/-! ## The batch endpoint `evaluate_batch_companies`
(src/app.py lines 271-394) -/

/-- External calls the handler's work can issue. -/
inductive ExtCall : Type where
  | fetch (org : String) : ExtCall
  | clean (org : String) : ExtCall
  | evalMatch (org : String) : ExtCall
  | criteriaLLM (criteria : String) : ExtCall
  | callback : ExtCall
  deriving DecidableEq, Repr

def ExtCall.isEval : ExtCall → Bool
  | .evalMatch _ => true
  | _ => false

/-- External calls one with-criteria item attempts: retrieval always,
cleaning only after a truthy record, the completion call only after truthy
cleaned data.  (An exception that escapes the task still follows its first
awaited step.) -/
def wcItemCalls (behavior : String → ItemEnvWC ⊕ String) (org : String) :
    List ExtCall :=
  match behavior org with
  | .inr _ => [.fetch org]
  | .inl env =>
    match env.fetch with
    | .ret (some _) =>
      match env.clean with
      | .ret (some _) => [.fetch org, .clean org, .evalMatch org]
      | _ => [.fetch org, .clean org]
    | _ => [.fetch org]

/-- Result of the callback POST (lines 363-381). -/
inductive CallbackRes : Type where
  | ok (statusCode : ℕ) : CallbackRes
  | timedOut : CallbackRes
  | raises (msg : String) : CallbackRes

def callbackStatusOf : CallbackRes → String
  | .ok c => if c = 200 then "success" else "failed"
  | .timedOut => "timeout"
  | .raises _ => "error"

structure HttpErr where
  statusCode : ℕ
  detail : String
  deriving DecidableEq, Repr

/-- Everything the environment decides during one batch request. -/
structure BatchEnv where
  wc : String → ItemEnvWC ⊕ String
  nc : String → XRes (Option CompanyRec) ⊕ String
  sched : ℕ → List ℕ
  timedOut : Bool
  callbackRes : CallbackRes

/-- The handler's observable result: the delivered result list, the
callback outcome, and the summary counters. -/
structure BatchResult where
  results : List NCOutcome ⊕ List WCOutcome
  callback_status : String
  total : ℕ
  successful : ℕ
  failed : ℕ
  matching : Option ℕ

/-- `request.batch_size or 5` (`None` and `0` are falsy). -/
def batchSizeOr5 : Option ℕ → ℕ
  | none => 5
  | some 0 => 5
  | some n => n

/-- `evaluate_batch_companies`: validate, compute the overall deadline,
dispatch on `if not request.criteria`, aggregate, send the callback.
The second component lists the external calls the run attempts (empty on
the validation path, which returns before any work). -/
def evaluate_batch_companies (org_numbers : List String)
    (criteria : Option String) (batch_size : Option ℕ) (env : BatchEnv) :
    Except HttpErr BatchResult × List ExtCall :=
  if org_numbers.isEmpty then
    (.error ⟨400, "No organization numbers provided"⟩, [])
  else if org_numbers.length > 100 then
    (.error ⟨400, "Maximum 100 companies per batch"⟩, [])
  else
    let bs := batchSizeOr5 batch_size
    let critFalsy : Bool := match criteria with
      | none => true
      | some c => c == ""
    if critFalsy then
      let calls := org_numbers.map ExtCall.fetch
      if env.timedOut then
        (.error ⟨504, "Batch processing timed out"⟩, calls)
      else
        let results := process_batch_without_criteria env.nc bs org_numbers env.sched
        let successful := (results.filter (fun r => r.status == "success")).length
        (.ok ⟨.inl results, callbackStatusOf env.callbackRes,
          org_numbers.length, successful, results.length - successful, none⟩,
         calls ++ [.callback])
    else
      let c := criteria.getD ""
      let calls := .criteriaLLM c :: (org_numbers.map (wcItemCalls env.wc)).flatten
      if env.timedOut then
        (.error ⟨504, "Batch processing timed out"⟩, calls)
      else
        let results := process_batch_with_criteria env.wc bs org_numbers env.sched
        let successful := (results.filter (fun r => r.status == "success")).length
        let matchCount := (results.filter (fun r => r.is_match)).length
        (.ok ⟨.inr results, callbackStatusOf env.callbackRes,
          org_numbers.length, successful, results.length - successful,
          some matchCount⟩,
         calls ++ [.callback])

/-! ## The criteria-extraction cache
(`CompanyMatcher._cached_criteria_extraction`, src/services/gpt_service.py
lines 222-225, and `get_matcher`, src/app.py lines 33-41)

`functools.lru_cache` on the method caches on the full argument tuple
`(self, criteria_hash, criteria)`.  The hash is `md5(criteria)`, a function
of `criteria`, so the effective key is `(self, criteria)`: a matcher
identity paired with the criteria text.  `get_matcher` is a FastAPI
dependency that CONSTRUCTS A NEW `CompanyMatcher` for every request. -/

structure CInfoR where
  summary : String
  required_fields : List String
  deriving DecidableEq, Repr

/-- The process-global cache state of the decorated method. -/
def CriteriaCache : Type := List ((ℕ × String) × CInfoR)

/-- One call of `_cached_criteria_extraction`: returns the result, the new
cache state, and how many completion-service calls were issued (0 on a
hit, 1 on a miss). -/
def cached_criteria_extraction (llm : String → CInfoR) (matcherId : ℕ)
    (criteria : String) (cache : CriteriaCache) :
    CInfoR × CriteriaCache × ℕ :=
  match cache.find? (fun p => p.1 == (matcherId, criteria)) with
  | some p => (p.2, cache, 0)
  | none =>
      let r := llm criteria
      (r, ((matcherId, criteria), r) :: cache, 1)

/-- `get_matcher` builds a fresh `CompanyMatcher` per request, so request
`i` gets matcher identity `i`. -/
def get_matcher (requestId : ℕ) : ℕ := requestId

/-- Two consecutive criteria interpretations (by matchers `id1` then
`id2`, same criteria text), threading the process-global cache; the result
is the total number of completion-service calls issued. -/
def interpretTwiceCalls (llm : String → CInfoR) (id1 id2 : ℕ)
    (criteria : String) (cache0 : CriteriaCache) : ℕ :=
  let r1 := cached_criteria_extraction llm id1 criteria cache0
  let r2 := cached_criteria_extraction llm id2 criteria r1.2.1
  r1.2.2 + r2.2.2

/-! ## Shorthands and concrete material used by the theorems -/

/-- How one task slot resolves after the replacement pass. -/
def resolveTask {α : Type} (itemFn : String → TaskRes α)
    (onExc : String → String → α) (org : String) : α :=
  match itemFn org with
  | .inl r => r
  | .inr e => onExc org e

/-- The outcome one org number ends up with in the with-criteria path. -/
def wcItemOutcome (behavior : String → ItemEnvWC ⊕ String) (org : String) :
    WCOutcome :=
  match behavior org with
  | .inl env => processSingleWC org env
  | .inr e => wcExcOutcome org e

/-- The outcome one org number ends up with in the retrieval-only path. -/
def ncItemOutcome (behavior : String → XRes (Option CompanyRec) ⊕ String)
    (org : String) : NCOutcome :=
  match behavior org with
  | .inl fr => processSingleNC org fr
  | .inr e => ncExcOutcome org e

def mrGood : MatchResultR := ⟨85, "fits the criteria", 1, ["stockholm"], [], 0⟩

def envGoodWC : ItemEnvWC :=
  ⟨.ret (some ⟨"Acme AB"⟩), .ret (some ()), .ret mrGood⟩

def bGood : String → ItemEnvWC ⊕ String := fun _ => .inl envGoodWC

/-- Completion order for a single one-task chunk. -/
def sched1 : ℕ → List ℕ := fun k => if k = 0 then [0] else []

/-- A scrambled completion order for one five-task chunk. -/
def sched5 : ℕ → List ℕ := fun k => if k = 0 then [4, 0, 2, 1, 3] else []

/-- Five items; the third raises an exception whose `str()` is empty
(e.g. `raise Exception()`). -/
def c4bhv : String → ItemEnvWC ⊕ String :=
  fun org => if org = "c" then .inr "" else .inl envGoodWC

def c8text : String := "Score: 72. Confidence: 80%. Reason: strong industry fit."

def llmConst : String → CInfoR := fun _ => ⟨"summary", ["location"]⟩

def envRetrievalOk : BatchEnv :=
  ⟨fun _ => .inr "", fun _ => .inl (.ret (some ⟨"Acme AB"⟩)), sched1, false,
   .ok 200⟩

/-! # Theorems -/

/-! ## Bridge lemmas: the reducible arithmetic is the real arithmetic -/

theorem qAdd_eq_add (a b : ℚ) : qAdd a b = a + b := by
  rw [Rat.add_def]
  rfl

theorem qMul_eq_mul (a b : ℚ) : qMul a b = a * b := by
  rw [Rat.mul_def]
  rfl

theorem qDiv_eq_div (a b : ℚ) : qDiv a b = a / b := by
  rw [Rat.div_def']
  rfl

theorem qNeg_eq_neg (a : ℚ) : qNeg a = -a := by
  rw [qNeg, ← Rat.neg_divInt, Rat.num_divInt_den]

theorem qPowNat_eq_pow (q : ℚ) (k : ℕ) : qPowNat q k = q ^ k := by
  induction k with
  | zero => rfl
  | succ n ih => rw [qPowNat, ih, pow_succ, qMul_eq_mul, mul_comm]

theorem qMulPow10z_eq (q : ℚ) (e : ℤ) : qMulPow10z q e = q * (10 : ℚ) ^ e := by
  cases e with
  | ofNat k =>
      rw [qMulPow10z, qMul_eq_mul, qPowNat_eq_pow]
      exact congrArg (fun t => q * t) (zpow_natCast (10 : ℚ) k).symm
  | negSucc k =>
      rw [qMulPow10z, qDiv_eq_div, qPowNat_eq_pow, zpow_negSucc, div_eq_mul_inv]

/-! ## Gather: completion order does not matter -/

theorem fillSlots_length {α : Type} (tasks : List α) (order : List ℕ)
    (acc : List (Option α)) :
    (fillSlots tasks order acc).length = acc.length := by
  induction order generalizing acc with
  | nil => rfl
  | cons j rest ih => rw [fillSlots, ih, List.length_set]

theorem fillSlots_getElem? {α : Type} (tasks : List α) (order : List ℕ)
    (acc : List (Option α)) (i : ℕ) :
    (fillSlots tasks order acc)[i]? =
      if i ∈ order ∧ i < acc.length then some tasks[i]? else acc[i]? := by
  induction order generalizing acc with
  | nil => simp [fillSlots]
  | cons j rest ih =>
      rw [fillSlots, ih, List.length_set]
      by_cases hij : i = j
      · subst hij
        by_cases hlen : i < acc.length
        · by_cases hr : i ∈ rest
          · simp [hr, hlen]
          · simp [hr, hlen, List.getElem?_set]
        · simp [hlen, List.getElem?_set, List.getElem?_eq_none,
            Nat.le_of_not_lt]
      · have hset : (acc.set j tasks[j]?)[i]? = acc[i]? := by
          rw [List.getElem?_set, if_neg (fun h => hij h.symm)]
        rw [hset]
        by_cases hr : i ∈ rest
        · simp [hr, List.mem_cons]
        · simp [hr, List.mem_cons, hij]

theorem gatherResult_of_perm {α : Type} (tasks : List α) (order : List ℕ)
    (dflt : α) (h : order.Perm (List.range tasks.length)) :
    gatherResult tasks order dflt = tasks := by
  apply List.ext_getElem?
  intro i
  rw [gatherResult, List.getElem?_map, fillSlots_getElem?, List.length_replicate]
  have hmem : i ∈ order ↔ i < tasks.length := by
    rw [h.mem_iff, List.mem_range]
  by_cases hi : i < tasks.length
  · rw [if_pos ⟨hmem.mpr hi, hi⟩, List.getElem?_eq_getElem hi]
    rfl
  · rw [if_neg (fun hc => hi hc.2), List.getElem?_replicate, if_neg hi]
    simp [List.getElem?_eq_none, Nat.le_of_not_lt hi]

theorem fillSlots_mem {α : Type} (tasks : List α) (order : List ℕ)
    (acc : List (Option α)) (o : Option α) (ho : o ∈ fillSlots tasks order acc) :
    o ∈ acc ∨ ∃ j : ℕ, o = tasks[j]? := by
  induction order generalizing acc with
  | nil => exact Or.inl ho
  | cons j rest ih =>
      rcases ih _ ho with hacc | hj
      · rcases List.mem_or_eq_of_mem_set hacc with h1 | h2
        · exact Or.inl h1
        · exact Or.inr ⟨j, h2⟩
      · exact Or.inr hj

theorem gatherResult_mem {α : Type} (tasks : List α) (order : List ℕ)
    (dflt : α) (x : α) (hx : x ∈ gatherResult tasks order dflt) :
    x = dflt ∨ x ∈ tasks := by
  rw [gatherResult] at hx
  rcases List.mem_map.mp hx with ⟨o, ho, rfl⟩
  rcases fillSlots_mem _ _ _ _ ho with hacc | ⟨j, rfl⟩
  · left
    rw [List.eq_of_mem_replicate hacc]
    rfl
  · cases hj : tasks[j]? with
    | none =>
        left
        rfl
    | some t =>
        right
        simpa using List.getElem?_mem hj

/-! ## The chunk loop resolves to an input-ordered map -/

theorem processChunksFuel_eq_map {α : Type} (itemFn : String → TaskRes α)
    (onExc : String → String → α) (dmsg : String) (bs : ℕ)
    (sched : ℕ → List ℕ) (hbs : bs ≠ 0) :
    ∀ fuel k l, l.length ≤ fuel →
      (∀ j, (sched (k + j)).Perm (List.range (chunkLen bs l.length j))) →
      processChunksFuel itemFn onExc dmsg bs sched fuel k l
        = l.map (resolveTask itemFn onExc) := by
  intro fuel
  induction fuel with
  | zero =>
      intro k l hl _
      have : l = [] := List.eq_nil_of_length_eq_zero (Nat.le_zero.mp hl)
      subst this
      rfl
  | succ fuel ih =>
      intro k l hl hsched
      cases l with
      | nil => rfl
      | cons a t =>
          simp only [processChunksFuel]
          rw [if_neg hbs]
          have hchunk : ((a :: t).take bs).length = chunkLen bs (a :: t).length 0 := by
            rw [List.length_take]
            simp [chunkLen]
          have hperm : (sched k).Perm
              (List.range (((a :: t).take bs).map itemFn).length) := by
            rw [List.length_map, hchunk]
            simpa using hsched 0
          rw [gatherResult_of_perm _ _ _ hperm]
          have hz : ∀ c : List String,
              c.zip (c.map itemFn) = c.map (fun o => (o, itemFn o)) := by
            intro c
            induction c with
            | nil => rfl
            | cons x xs ihc => simp [ihc]
          rw [hz ((a :: t).take bs), List.map_map]
          have hrec := ih (k + 1) ((a :: t).drop bs)
            (by
              rw [List.length_drop]
              have h1 : 1 ≤ bs := Nat.pos_of_ne_zero hbs
              simp only [List.length_cons] at hl ⊢
              omega)
            (by
              intro j
              have h2 := hsched (j + 1)
              have e1 : k + (j + 1) = (k + 1) + j := by omega
              have e2 : chunkLen bs (a :: t).length (j + 1)
                  = chunkLen bs ((a :: t).drop bs).length j := by
                simp only [chunkLen, List.length_drop, Nat.mul_succ]
                congr 1
                omega
              rwa [e1, e2] at h2)
          rw [hrec]
          have hfun : ((fun p : String × TaskRes α =>
              match p.2 with
              | .inl r => r
              | .inr e => onExc p.1 e) ∘ (fun o => (o, itemFn o)))
              = resolveTask itemFn onExc := rfl
          rw [hfun, ← List.map_append, List.take_append_drop]

theorem processChunks_eq_map {α : Type} (itemFn : String → TaskRes α)
    (onExc : String → String → α) (dmsg : String) (bs : ℕ)
    (sched : ℕ → List ℕ) (l : List String) (hbs : bs ≠ 0)
    (hs : ValidSchedule bs l.length sched) :
    processChunks itemFn onExc dmsg bs sched l
      = l.map (resolveTask itemFn onExc) :=
  processChunksFuel_eq_map itemFn onExc dmsg bs sched hbs l.length 0 l
    le_rfl (fun j => by simpa using hs j)

/-! ## Every chunk-loop output is an item result or a replacement dict -/

theorem processChunksFuel_mem {α : Type} (itemFn : String → TaskRes α)
    (onExc : String → String → α) (dmsg : String) (bs : ℕ)
    (sched : ℕ → List ℕ) :
    ∀ fuel k l x, x ∈ processChunksFuel itemFn onExc dmsg bs sched fuel k l →
      (∃ org r, itemFn org = Sum.inl r ∧ x = r) ∨ ∃ org e, x = onExc org e := by
  intro fuel
  induction fuel with
  | zero =>
      intro k l x hx
      simp [processChunksFuel] at hx
  | succ fuel ih =>
      intro k l x hx
      cases l with
      | nil => simp [processChunksFuel] at hx
      | cons a t =>
          simp only [processChunksFuel] at hx
          by_cases hbs : bs = 0
          · rw [if_pos hbs] at hx
            simp at hx
          · rw [if_neg hbs] at hx
            rcases List.mem_append.mp hx with h1 | h2
            · rcases List.mem_map.mp h1 with ⟨⟨porg, ps⟩, hp, rfl⟩
              have hzip := List.of_mem_zip hp
              rcases gatherResult_mem _ _ _ _ hzip.2 with hdf | htask
              · right
                exact ⟨porg, dmsg, by rw [hdf]⟩
              · rcases List.mem_map.mp htask with ⟨org, _, hsi⟩
                cases ps with
                | inl r =>
                    left
                    exact ⟨org, r, hsi, rfl⟩
                | inr e =>
                    right
                    exact ⟨porg, e, rfl⟩
            · exact ih (k + 1) ((a :: t).drop bs) x h2

theorem processChunks_mem {α : Type} (itemFn : String → TaskRes α)
    (onExc : String → String → α) (dmsg : String) (bs : ℕ)
    (sched : ℕ → List ℕ) (l : List String) (x : α)
    (hx : x ∈ processChunks itemFn onExc dmsg bs sched l) :
    (∃ org r, itemFn org = Sum.inl r ∧ x = r) ∨ ∃ org e, x = onExc org e :=
  processChunksFuel_mem itemFn onExc dmsg bs sched l.length 0 l x hx

/-! ## Scheduler facts for concrete runs -/

theorem validSchedule_sched1 : ValidSchedule 5 1 sched1 := by
  intro j
  cases j with
  | zero => decide
  | succ n =>
      have h0 : chunkLen 5 1 (n + 1) = 0 := by
        simp only [chunkLen, Nat.mul_succ]
        omega
      rw [h0]
      simp [sched1]

theorem validSchedule_sched5 : ValidSchedule 5 5 sched5 := by
  intro j
  cases j with
  | zero => decide
  | succ n =>
      have h0 : chunkLen 5 5 (n + 1) = 0 := by
        simp only [chunkLen, Nat.mul_succ]
        omega
      rw [h0]
      simp [sched5]

/-! ## Per-item facts for the retrieval-only path -/

theorem processSingleNC_success (org : String) (fr : XRes (Option CompanyRec))
    (h : (processSingleNC org fr).status = "success") :
    (processSingleNC org fr).match_score = none ∧
      (processSingleNC org fr).is_match = true := by
  cases fr with
  | timeout => simp [processSingleNC] at h
  | raises e => simp [processSingleNC] at h
  | ret o =>
      cases o with
      | none => simp [processSingleNC, ncNotFound] at h
      | some d =>
          by_cases hn : d.companyName = ""
          · simp [processSingleNC, hn, ncNotFound] at h
          · simp [processSingleNC, hn]

/-- Any member of the retrieval-only result list that reports success has
`match_score = None` and `is_match = True`. -/
theorem nc_mem_success (behavior : String → XRes (Option CompanyRec) ⊕ String)
    (bs : ℕ) (orgs : List String) (sched : ℕ → List ℕ) (r : NCOutcome)
    (hr : r ∈ process_batch_without_criteria behavior bs orgs sched)
    (hstat : r.status = "success") :
    r.match_score = none ∧ r.is_match = true := by
  rw [process_batch_without_criteria] at hr
  rcases processChunks_mem _ _ _ _ _ _ _ hr with ⟨org, rr, hif, hxr⟩ | ⟨org, e, rfl⟩
  · cases hnc : behavior org with
    | inl fr =>
        rw [hnc] at hif
        simp only [Sum.inl.injEq] at hif
        have hr2 : r = processSingleNC org fr := by rw [hxr, ← hif]
        rw [hr2] at hstat ⊢
        exact processSingleNC_success org fr hstat
    | inr e =>
        rw [hnc] at hif
        simp at hif
  · simp [ncExcOutcome] at hstat

/-! ## Claim theorems -/

/-- The with-criteria batch driver resolves to the input-ordered map of
the per-item outcome, for any valid completion orders. -/
theorem wc_batch_eq_map (behavior : String → ItemEnvWC ⊕ String) (bs : ℕ)
    (orgs : List String) (sched : ℕ → List ℕ) (hbs : bs ≠ 0)
    (hs : ValidSchedule bs orgs.length sched) :
    process_batch_with_criteria behavior bs orgs sched
      = orgs.map (wcItemOutcome behavior) := by
  have hfun : resolveTask (fun org =>
      match behavior org with
      | .inl env => Sum.inl (processSingleWC org env)
      | .inr e => Sum.inr e) wcExcOutcome = wcItemOutcome behavior := by
    funext org
    cases hb : behavior org <;> simp [resolveTask, wcItemOutcome, hb]
  rw [process_batch_with_criteria,
    processChunks_eq_map _ wcExcOutcome "" bs sched orgs hbs hs, hfun]

/-- C1: for every org-number list with length in [1,100], a non-null
criteria (the environment `behavior` closes over the shared criteria
info), a positive chunk width and any valid per-chunk completion orders,
`process_batch_with_criteria` returns exactly one outcome per input org
number, in input order: the result list is the input-ordered map of the
per-item outcome, independent of the completion order. -/
theorem c1_batch_one_ordered_outcome_per_org
    (behavior : String → ItemEnvWC ⊕ String) (bs : ℕ) (orgs : List String)
    (sched : ℕ → List ℕ) (h1 : 1 ≤ orgs.length) (h2 : orgs.length ≤ 100)
    (hbs : bs ≠ 0) (hs : ValidSchedule bs orgs.length sched) :
    process_batch_with_criteria behavior bs orgs sched
        = orgs.map (wcItemOutcome behavior) ∧
      (process_batch_with_criteria behavior bs orgs sched).length
        = orgs.length := by
  rw [wc_batch_eq_map behavior bs orgs sched hbs hs]
  exact ⟨rfl, List.length_map orgs _⟩

/-- Witness for C1: a concrete one-element batch. -/
theorem c1_witness :
    (1 ≤ (["5560160680"] : List String).length ∧
      (["5560160680"] : List String).length ≤ 100 ∧ (5 : ℕ) ≠ 0 ∧
      ValidSchedule 5 (["5560160680"] : List String).length sched1) ∧
    (process_batch_with_criteria bGood 5 ["5560160680"] sched1
        = (["5560160680"] : List String).map (wcItemOutcome bGood) ∧
      (process_batch_with_criteria bGood 5 ["5560160680"] sched1).length
        = (["5560160680"] : List String).length) :=
  ⟨⟨by decide, by decide, by decide, validSchedule_sched1⟩,
   c1_batch_one_ordered_outcome_per_org bGood 5 ["5560160680"] sched1
     (by decide) (by decide) (by decide) validSchedule_sched1⟩

/-- C2: a batch request with an empty org-number list or more than 100
org numbers is rejected with HTTP 400 before any work: no outcomes and
no external calls. -/
theorem c2_validation_rejects_before_work (orgs : List String)
    (criteria : Option String) (bs : Option ℕ) (env : BatchEnv)
    (h : orgs = [] ∨ orgs.length > 100) :
    ∃ detail, evaluate_batch_companies orgs criteria bs env
        = (.error ⟨400, detail⟩, []) := by
  rcases h with h | h
  · subst h
    exact ⟨"No organization numbers provided", rfl⟩
  · refine ⟨"Maximum 100 companies per batch", ?_⟩
    have hne : orgs.isEmpty = false := by
      cases orgs with
      | nil => simp at h
      | cons a t => rfl
    simp [evaluate_batch_companies, hne, h]

/-- Witness for C2: the empty batch. -/
theorem c2_witness :
    (([] : List String) = [] ∨ ([] : List String).length > 100) ∧
    ∃ detail, evaluate_batch_companies [] none none envRetrievalOk
        = (.error ⟨400, detail⟩, []) :=
  ⟨Or.inl rfl,
   c2_validation_rejects_before_work [] none none envRetrievalOk (Or.inl rfl)⟩

/-- C3: with `criteria = null` the handler takes the retrieval-only path:
no completion-service evaluation call is issued for any item, and every
outcome with `status = "success"` has `match_score = None` and
`is_match = True`. -/
theorem c3_no_criteria_skips_evaluator (orgs : List String) (bs : Option ℕ)
    (env : BatchEnv) :
    (∀ c ∈ (evaluate_batch_companies orgs none bs env).2, c.isEval = false) ∧
    (∀ res, (evaluate_batch_companies orgs none bs env).1 = Except.ok res →
      ∃ rs, res.results = Sum.inl rs ∧
        ∀ r ∈ rs, r.status = "success" →
          r.match_score = none ∧ r.is_match = true) := by
  by_cases hemp : orgs.isEmpty
  · constructor
    · intro c hc
      simp [evaluate_batch_companies, hemp] at hc
    · intro res hres
      simp [evaluate_batch_companies, hemp] at hres
  · by_cases hlen : orgs.length > 100
    · constructor
      · intro c hc
        simp [evaluate_batch_companies, hemp, hlen] at hc
      · intro res hres
        simp [evaluate_batch_companies, hemp, hlen] at hres
    · by_cases htm : env.timedOut
      · constructor
        · intro c hc
          simp [evaluate_batch_companies, hemp, hlen, htm] at hc
          rcases hc with ⟨org, _, rfl⟩
          rfl
        · intro res hres
          simp [evaluate_batch_companies, hemp, hlen, htm] at hres
      · constructor
        · intro c hc
          simp [evaluate_batch_companies, hemp, hlen, htm] at hc
          rcases hc with ⟨org, _, rfl⟩ | rfl <;> rfl
        · intro res hres
          simp [evaluate_batch_companies, hemp, hlen, htm] at hres
          refine ⟨process_batch_without_criteria env.nc (batchSizeOr5 bs)
            orgs env.sched, ?_, ?_⟩
          · rw [← hres]
          · intro r hr hstat
            exact nc_mem_success env.nc (batchSizeOr5 bs) orgs env.sched r hr hstat

/-- Witness for C3: one org number, retrieved successfully. -/
theorem c3_witness :
    (ExtCall.fetch "5560160680").isEval = false ∧
    ∃ rs,
      (⟨Sum.inl [processSingleNC "5560160680" (XRes.ret (some ⟨"Acme AB"⟩))],
        "success", 1, 1, 0, none⟩ : BatchResult).results = Sum.inl rs ∧
      ∀ r ∈ rs, r.status = "success" →
        r.match_score = none ∧ r.is_match = true :=
  ⟨(c3_no_criteria_skips_evaluator ["5560160680"] none envRetrievalOk).1
      (ExtCall.fetch "5560160680") (by decide),
   (c3_no_criteria_skips_evaluator ["5560160680"] none envRetrievalOk).2
      _ (by rfl)⟩

/-- Counterexample for C4: in a chunk of five items where the third raises
an exception whose `str()` is the empty string (`raise Exception()`), the
synthesized entry has `status = "failed"` but its error string is EMPTY,
contradicting the claim's "non-empty error string". -/
theorem c4_counterexample :
    (process_batch_with_criteria c4bhv 5 ["a", "b", "c", "d", "e"] sched5).length = 5 ∧
    (process_batch_with_criteria c4bhv 5 ["a", "b", "c", "d", "e"] sched5)[2]?
      = some (wcExcOutcome "c" "") ∧
    (wcExcOutcome "c" "").status = "failed" ∧
    (wcExcOutcome "c" "").error = some "" := by
  refine ⟨by decide, by decide, rfl, rfl⟩

/-- C4 (amended): in a chunk of five items where only item 3 raises an
unexpected exception, the outcome list still has five entries in input
order; item 3's entry is failed with error equal to the exception's text
(non-empty whenever that text is non-empty); items 1, 2, 4 and 5 are
exactly what they are in a run where item 3 does not raise, regardless of
either run's completion order. -/
theorem c4_single_item_exception_isolated (o1 o2 o3 o4 o5 : String)
    (b : String → ItemEnvWC ⊕ String) (e : String)
    (sched sched' : ℕ → List ℕ)
    (hd : o1 ≠ o3 ∧ o2 ≠ o3 ∧ o4 ≠ o3 ∧ o5 ≠ o3)
    (hs : ValidSchedule 5 5 sched) (hs' : ValidSchedule 5 5 sched') :
    (process_batch_with_criteria
        (fun org => if org = o3 then Sum.inr e else b org) 5
        [o1, o2, o3, o4, o5] sched').length = 5 ∧
    (process_batch_with_criteria
        (fun org => if org = o3 then Sum.inr e else b org) 5
        [o1, o2, o3, o4, o5] sched')[2]? = some (wcExcOutcome o3 e) ∧
    (wcExcOutcome o3 e).status = "failed" ∧
    (wcExcOutcome o3 e).error = some e ∧
    (∀ i ∈ ([0, 1, 3, 4] : List ℕ),
      (process_batch_with_criteria
          (fun org => if org = o3 then Sum.inr e else b org) 5
          [o1, o2, o3, o4, o5] sched')[i]?
        = (process_batch_with_criteria b 5 [o1, o2, o3, o4, o5] sched)[i]?) := by
  obtain ⟨h13, h23, h43, h53⟩ := hd
  have hm' := wc_batch_eq_map
    (fun org => if org = o3 then Sum.inr e else b org) 5 [o1, o2, o3, o4, o5]
    sched' (by decide) hs'
  have hm := wc_batch_eq_map b 5 [o1, o2, o3, o4, o5] sched (by decide) hs
  refine ⟨?_, ?_, rfl, rfl, ?_⟩
  · rw [hm']
    rfl
  · rw [hm']
    simp [wcItemOutcome]
  · intro i hi
    rw [hm, hm']
    fin_cases hi <;>
      simp [wcItemOutcome, h13, h23, h43, h53]

/-- Witness for C4 (amended): concrete five-element chunk, scrambled
completion orders, exception text "boom". -/
theorem c4_witness :
    (("a" : String) ≠ "c" ∧ ("b" : String) ≠ "c" ∧ ("d" : String) ≠ "c" ∧
      ("e" : String) ≠ "c") ∧
    ((process_batch_with_criteria
        (fun org => if org = "c" then Sum.inr "boom" else bGood org) 5
        ["a", "b", "c", "d", "e"] sched5).length = 5 ∧
      (process_batch_with_criteria
          (fun org => if org = "c" then Sum.inr "boom" else bGood org) 5
          ["a", "b", "c", "d", "e"] sched5)[2]?
        = some (wcExcOutcome "c" "boom") ∧
      (wcExcOutcome "c" "boom").status = "failed" ∧
      (wcExcOutcome "c" "boom").error = some "boom" ∧
      (∀ i ∈ ([0, 1, 3, 4] : List ℕ),
        (process_batch_with_criteria
            (fun org => if org = "c" then Sum.inr "boom" else bGood org) 5
            ["a", "b", "c", "d", "e"] sched5)[i]?
          = (process_batch_with_criteria bGood 5
              ["a", "b", "c", "d", "e"] sched5)[i]?)) :=
  ⟨by decide,
   c4_single_item_exception_isolated "a" "b" "c" "d" "e" bGood "boom"
     sched5 sched5 (by decide) validSchedule_sched5 validSchedule_sched5⟩

/-- C5: for every batch of n companies (1 ≤ n ≤ 100) the overall batch
deadline equals `clamp(n × 300 s, 600 s, 7200 s)`, and for n = 12 it is
exactly 3600 s. -/
theorem c5_overall_deadline_clamp (n : ℕ) (h1 : 1 ≤ n) (h2 : n ≤ 100) :
    overall_timeout n = specClamp 600 7200 (n * 300) ∧
    overall_timeout 12 = 3600 := by
  constructor
  · simp only [overall_timeout, specClamp, Nat.mul_assoc]
  · decide

/-- Witness for C5 at the concrete batch size 12. -/
theorem c5_overall_deadline_clamp_witness :
    (1 ≤ 12 ∧ 12 ≤ 100) ∧
      (overall_timeout 12 = specClamp 600 7200 (12 * 300) ∧
        overall_timeout 12 = 3600) :=
  ⟨by decide, c5_overall_deadline_clamp 12 (by decide) (by decide)⟩

/-- Counterexample for C6: `normalize_required_fields` keeps "website",
which is outside the allowed vocabulary — nothing is intersected with the
vocabulary, so the claim's "silently dropped" is false. -/
theorem c6_counterexample :
    "website" ∉ allowed_fields_vocabulary ∧
    normalize_required_fields (JVal.arr [JVal.str "website"]) = ["website"] := by
  refine ⟨by decide, by decide⟩

/-- C6 (amended): `normalize_required_fields` applies the list-coercion
rules and never raises, but performs NO intersection with the allowed
vocabulary: a (stripped, non-empty) value outside the vocabulary is
retained in `required_fields`. -/
theorem c6_required_fields_not_intersected (item : String) (h1 : item ≠ "")
    (h2 : pyStrip item ∉ allowed_fields_vocabulary) :
    normalize_required_fields (JVal.arr [JVal.str item]) = [pyStrip item] := by
  unfold normalize_required_fields coerceListItems
  simp [pyTruthy, pyStr, h1]

/-- Witness for C6 (amended) at the out-of-vocabulary value "website". -/
theorem c6_witness :
    (("website" : String) ≠ "" ∧ pyStrip "website" ∉ allowed_fields_vocabulary) ∧
    normalize_required_fields (JVal.arr [JVal.str "website"])
      = [pyStrip "website"] :=
  ⟨⟨by decide, by decide⟩,
   c6_required_fields_not_intersected "website" (by decide) (by decide)⟩

/-- C7: evaluating the confidence normalizer at the claim's own example
inputs.  `re.findall(r'\d+(\.\d+)?', v)` returns the CAPTURE GROUP of each
match, so for "85" it yields `['']`, `float('')` raises, and the
direct-conversion fallback clamps 85.0 to 1.0 (the claim expects 0.85);
for "2.5" the group is ".5", giving 0.5 (the claim expects 0.025).  The
unparseable case does return 0.0. -/
theorem c7_confidence_findall_group_bug :
    normalize_confidence (JVal.str "85") = 1 ∧
    normalize_confidence (JVal.str "2.5") = Rat.divInt 1 2 ∧
    normalize_confidence (JVal.str "no numbers here") = 0 := by
  refine ⟨by decide, by decide, by decide⟩

/-- Counterexample for C8: on the claim's exact completion-service text the
normalizer returns `match_score = 0` (not 72) and `confidence = 1` (not
0.8): the fallback's score regex requires a "match ... score" label, which
"Score:" does not satisfy, and the first confidence pattern captures "80"
without percent handling, after which the field validator clamps 80.0 to
1.0. -/
theorem c8_counterexample :
    parse_llm_response c8text
        = Except.ok ⟨0, "strong industry fit.", 1, [], [], 0⟩ ∧
      (0 : ℤ) ≠ 72 ∧ (1 : ℚ) ≠ Rat.divInt 4 5 := by
  refine ⟨by rfl, by decide, by decide⟩

/-- C8 (amended): the text contains no JSON, so all three JSON strategies
fail and the regex fallback produces `match_score = 0`, `confidence = 1.0`
(clamped from the raw 80), and `reason = "strong industry fit."`. -/
theorem c8_regex_fallback_result :
    jsonLoads c8text = none ∧
    braceMatches c8text = [] ∧
    parse_llm_response c8text = Except.ok (extract_match_result c8text) ∧
    extract_match_result c8text
      = ⟨0, "strong industry fit.", 1, [], [], 0⟩ := by
  refine ⟨by rfl, by rfl, by rfl, by rfl⟩

/-- Counterexample for C9: two batch requests construct two distinct
matchers (`get_matcher` builds a fresh `CompanyMatcher` per request), the
`lru_cache` key includes `self`, so the identical criteria string issues
TWO completion-service calls, not at most one. -/
theorem c9_counterexample :
    interpretTwiceCalls llmConst (get_matcher 0) (get_matcher 1)
        "tech companies in Stockholm" [] = 2 ∧
      ¬ (2 ≤ 1) := by
  refine ⟨by decide, by decide⟩

/-- C9 (amended): within ONE matcher instance (hence within one batch
request), two interpretations of the identical criteria string issue at
most one completion-service call, from any starting cache state; the
cross-request reuse the claim asserts does not happen because the cache
key includes the matcher instance and every request gets a fresh one. -/
theorem c9_cache_per_matcher_idempotent (llm : String → CInfoR)
    (matcherId : ℕ) (criteria : String) (cache0 : CriteriaCache) :
    interpretTwiceCalls llm matcherId matcherId criteria cache0 ≤ 1 := by
  unfold interpretTwiceCalls cached_criteria_extraction
  cases hf : cache0.find? (fun p => p.1 == (matcherId, criteria)) with
  | some p => simp [hf]
  | none => simp [hf, List.find?_cons]

/-- C10: in retrieval-only mode an item is successful exactly when the
retrieved record is truthy with a non-empty `CompanyName`; a record with
an empty `CompanyName` yields the failed outcome with error
"Company data not found or incomplete", `is_match = False` and
`company_profile = None` (the record is discarded). -/
theorem c10_success_requires_company_name (org : String)
    (fr : XRes (Option CompanyRec)) :
    ((processSingleNC org fr).status = "success" ↔
      ∃ d, fr = XRes.ret (some d) ∧ d.companyName ≠ "") ∧
    ∀ d, fr = XRes.ret (some d) → d.companyName = "" →
      processSingleNC org fr = ncNotFound org := by
  constructor
  · constructor
    · intro h
      cases fr with
      | timeout => simp [processSingleNC] at h
      | raises e => simp [processSingleNC] at h
      | ret o =>
          cases o with
          | none => simp [processSingleNC, ncNotFound] at h
          | some d =>
              by_cases hn : d.companyName = ""
              · simp [processSingleNC, hn, ncNotFound] at h
              · exact ⟨d, rfl, hn⟩
    · rintro ⟨d, rfl, hn⟩
      simp [processSingleNC, hn]
  · rintro d rfl hn
    simp [processSingleNC, hn]

/-- Witness for C10: a retrieved record whose `CompanyName` is empty. -/
theorem c10_witness :
    processSingleNC "5560160680" (XRes.ret (some ⟨""⟩))
        = ncNotFound "5560160680" ∧
      (processSingleNC "5560160680" (XRes.ret (some ⟨""⟩))).status ≠ "success" :=
  ⟨(c10_success_requires_company_name "5560160680"
      (XRes.ret (some ⟨""⟩))).2 ⟨""⟩ rfl rfl,
   by decide⟩

end Prospectus
